import Mathlib

/-!
Shallow embedding of the post-queue engine (scripts/generate_queue.py,
scripts/validate_queue.py, scripts/approve_range.py, src/post_slot.py,
src/utils.py) and proofs about it.

Python strings are modelled as Lean `String` (sequences of Unicode code
points); Python `dict`s with a fixed key set become structures, JSON-style
optional fields become `Option` or a sentinel matching the `.get` default
used by the code; Python's ambient clock (`today_jst`, `utc_iso`) is passed
in as an explicit parameter; the global `random` generator is modelled as an
explicit stream of naturals consumed one value per `random.*` call.
-/

set_option maxRecDepth 10000

namespace Twitter

/-! ### src/utils.py — Normalizer -/

namespace Utils

/-- Characters matched by the regex `[ \t]+` in `normalize_text`. -/
def isSpTab (c : Char) : Bool := c = ' ' || c = '\t'

/-- Embedding of `re.sub(r"[ \t]+", " ", text)`: each maximal run of
spaces/tabs becomes a single space.  The boolean records whether the
previous character belonged to a run. -/
def collapseSpacesAux : Bool → List Char → List Char
  | _, [] => []
  | prevSp, c :: rest =>
    if isSpTab c then
      if prevSp then collapseSpacesAux true rest
      else ' ' :: collapseSpacesAux true rest
    else c :: collapseSpacesAux false rest

/-- Embedding of `re.sub(r"\n{3,}", "\n\n", text)`: each maximal run of
3 or more newlines becomes exactly two, i.e. every run is capped at two.
The counter records how many newlines of the current run were kept. -/
def capNlAux : Nat → List Char → List Char
  | _, [] => []
  | seen, c :: rest =>
    if c = '\n' then
      if 2 ≤ seen then capNlAux seen rest
      else '\n' :: capNlAux (seen + 1) rest
    else c :: capNlAux 0 rest

/-- Python `str.isspace` / the whitespace set stripped by `str.strip()`. -/
def pyIsSpace (c : Char) : Bool :=
  c.toNat ∈ [0x20, 0x09, 0x0a, 0x0b, 0x0c, 0x0d, 0x1c, 0x1d, 0x1e, 0x1f,
    0x85, 0xa0, 0x1680, 0x2028, 0x2029, 0x202f, 0x205f, 0x3000] ||
  (decide (0x2000 ≤ c.toNat) && decide (c.toNat ≤ 0x200a))

/-- Drop `pyIsSpace` characters from the end of a list. -/
def dropEndSpace (l : List Char) : List Char :=
  (l.reverse.dropWhile pyIsSpace).reverse

/-- Embedding of Python `str.strip()`. -/
def pyStrip (l : List Char) : List Char :=
  dropEndSpace (l.dropWhile pyIsSpace)

/-- Embedding of `utils.normalize_text`: collapse space/tab runs to one
space, cap newline runs at two, strip surrounding whitespace. -/
def normalize_text (s : String) : String :=
  String.mk (pyStrip (capNlAux 0 (collapseSpacesAux false s.data)))

/-- No two adjacent characters are both space-or-tab. -/
def noDbl : List Char → Bool
  | [] => true
  | [_] => true
  | a :: b :: r => !(isSpTab a && isSpTab b) && noDbl (b :: r)

/-- No three adjacent characters are all newlines. -/
def noTriple : List Char → Bool
  | [] => true
  | [_] => true
  | [_, _] => true
  | a :: b :: c :: r =>
    !(a = '\n' && b = '\n' && c = '\n') && noTriple (b :: c :: r)

/-- Length of the leading run of newlines. -/
def leadNl : List Char → Nat
  | [] => 0
  | c :: r => if c = '\n' then leadNl r + 1 else 0

/-! ### src/utils.py — Fingerprint Engine

`hashlib.sha256(...).hexdigest()` over UTF-8 bytes, implemented from the
SHA-256 standard; 32-bit words are `Nat`s reduced modulo `2 ^ 32`. -/

/-- Reduce to a 32-bit word. -/
def w32 (n : Nat) : Nat := n % 4294967296

/-- Rotate a 32-bit word right by `n` bits. -/
def rotr32 (x n : Nat) : Nat := w32 ((x >>> n) ||| (x <<< (32 - n)))

def shaCh (e f g : Nat) : Nat := (e &&& f) ^^^ ((e ^^^ 4294967295) &&& g)

def shaMaj (a b c : Nat) : Nat := (a &&& b) ^^^ ((a &&& c) ^^^ (b &&& c))

def bigSigma0 (x : Nat) : Nat := (rotr32 x 2) ^^^ ((rotr32 x 13) ^^^ (rotr32 x 22))

def bigSigma1 (x : Nat) : Nat := (rotr32 x 6) ^^^ ((rotr32 x 11) ^^^ (rotr32 x 25))

def smallSigma0 (x : Nat) : Nat := (rotr32 x 7) ^^^ ((rotr32 x 18) ^^^ (x >>> 3))

def smallSigma1 (x : Nat) : Nat := (rotr32 x 17) ^^^ ((rotr32 x 19) ^^^ (x >>> 10))

/-- The 64 SHA-256 round constants (FIPS 180-4, in decimal). -/
def shaK : List Nat :=
  [1116352408, 1899447441, 3049323471, 3921009573, 961987163,
   1508970993, 2453635748, 2870763221, 3624381080, 310598401,
   607225278, 1426881987, 1925078388, 2162078206, 2614888103,
   3248222580, 3835390401, 4022224774, 264347078, 604807628,
   770255983, 1249150122, 1555081692, 1996064986, 2554220882,
   2821834349, 2952996808, 3210313671, 3336571891, 3584528711,
   113926993, 338241895, 666307205, 773529912, 1294757372,
   1396182291, 1695183700, 1986661051, 2177026350, 2456956037,
   2730485921, 2820302411, 3259730800, 3345764771, 3516065817,
   3600352804, 4094571909, 275423344, 430227734, 506948616,
   659060556, 883997877, 958139571, 1322822218, 1537002063,
   1747873779, 1955562222, 2024104815, 2227730452, 2361852424,
   2428436474, 2756734187, 3204031479, 3329325298]

/-- The eight 32-bit working variables of the SHA-256 state. -/
structure Hash8 where
  a : Nat
  b : Nat
  c : Nat
  d : Nat
  e : Nat
  f : Nat
  g : Nat
  h : Nat

/-- SHA-256 initial hash value (FIPS 180-4, in decimal). -/
def shaInit : Hash8 :=
  ⟨1779033703, 3144134277, 1013904242, 2773480762,
   1359893119, 2600822924, 528734635, 1541459225⟩

/-- SHA-256 padding: append `0x80`, zero bytes to 56 mod 64, then the
message bit length as 8 big-endian bytes. -/
def shaPad (msg : List Nat) : List Nat :=
  let len := msg.length
  let k := (64 + 56 - (len + 1) % 64) % 64
  let bits := len * 8
  msg ++ 0x80 :: (List.replicate k 0 ++
    [(bits >>> 56) &&& 255, (bits >>> 48) &&& 255, (bits >>> 40) &&& 255,
     (bits >>> 32) &&& 255, (bits >>> 24) &&& 255, (bits >>> 16) &&& 255,
     (bits >>> 8) &&& 255, bits &&& 255])

/-- Split a byte list into 64-byte chunks. -/
def chunk64 (l : List Nat) : List (List Nat) :=
  if h : l = [] then [] else l.take 64 :: chunk64 (l.drop 64)
termination_by l.length
decreasing_by
  simp only [List.length_drop]
  exact Nat.sub_lt (List.length_pos.mpr h) (by norm_num)

/-- Big-endian 32-bit words from bytes. -/
def bytesToWords : List Nat → List Nat
  | a :: b :: c :: d :: rest =>
    (((a * 256 + b) * 256 + c) * 256 + d) :: bytesToWords rest
  | _ => []

/-- Append the next word of the SHA-256 message schedule. -/
def extendStep (w : List Nat) : List Nat :=
  let n := w.length
  w ++ [w32 (smallSigma1 (w.getD (n - 2) 0) + w.getD (n - 7) 0 +
    smallSigma0 (w.getD (n - 15) 0) + w.getD (n - 16) 0)]

/-- Extend the message schedule `k` more words. -/
def extendW : Nat → List Nat → List Nat
  | 0, w => w
  | k + 1, w => extendW k (extendStep w)

/-- One SHA-256 compression round; the pair carries `(K[i], W[i])`. -/
def compressStep (st : Hash8) (kw : Nat × Nat) : Hash8 :=
  let t1 := w32 (st.h + bigSigma1 st.e + shaCh st.e st.f st.g + kw.1 + kw.2)
  let t2 := w32 (bigSigma0 st.a + shaMaj st.a st.b st.c)
  ⟨w32 (t1 + t2), st.a, st.b, st.c, w32 (st.d + t1), st.e, st.f, st.g⟩

/-- Process one 64-byte chunk. -/
def processChunk (st : Hash8) (chunk : List Nat) : Hash8 :=
  let w := extendW 48 (bytesToWords chunk)
  let o := (shaK.zip w).foldl compressStep st
  ⟨w32 (st.a + o.a), w32 (st.b + o.b), w32 (st.c + o.c), w32 (st.d + o.d),
   w32 (st.e + o.e), w32 (st.f + o.f), w32 (st.g + o.g), w32 (st.h + o.h)⟩

/-- SHA-256 of a byte list, as the final eight-word state. -/
def sha256Words (msg : List Nat) : Hash8 :=
  (chunk64 (shaPad msg)).foldl processChunk shaInit

/-- Lowercase hex digit. -/
def hexChar (n : Nat) : Char := "0123456789abcdef".data.getD (n % 16) '0'

/-- Eight lowercase hex digits of a 32-bit word. -/
def wordHex (w : Nat) : List Char :=
  [hexChar (w >>> 28), hexChar (w >>> 24), hexChar (w >>> 20),
   hexChar (w >>> 16), hexChar (w >>> 12), hexChar (w >>> 8),
   hexChar (w >>> 4), hexChar w]

/-- Embedding of `hashlib.sha256(bytes).hexdigest()`. -/
def sha256HexBytes (msg : List Nat) : String :=
  let s := sha256Words msg
  String.mk (([s.a, s.b, s.c, s.d, s.e, s.f, s.g, s.h].map wordHex).flatten)

/-- UTF-8 bytes of one code point. -/
def utf8Char (c : Char) : List Nat :=
  let n := c.toNat
  if n < 0x80 then [n]
  else if n < 0x800 then [0xc0 + n / 0x40, 0x80 + n % 0x40]
  else if n < 0x10000 then
    [0xe0 + n / 0x1000, 0x80 + n / 0x40 % 0x40, 0x80 + n % 0x40]
  else
    [0xf0 + n / 0x40000, 0x80 + n / 0x1000 % 0x40, 0x80 + n / 0x40 % 0x40,
     0x80 + n % 0x40]

/-- Embedding of Python `str.encode("utf-8")`. -/
def utf8Encode (s : String) : List Nat := (s.data.map utf8Char).flatten

/-- Embedding of `utils.calculate_fingerprint`: SHA-256 hex digest of the
UTF-8 bytes of the normalized text. -/
def calculate_fingerprint (text : String) : String :=
  sha256HexBytes (utf8Encode (normalize_text text))

/-! ### Queue records and the Duplicate Guard (src/utils.py) -/

/-- One queue record; fields mirror the JSON document.  String fields that
the code reads with `.get(key, "")` (or only tests for truthiness) are
plain `String`s with `""` standing for a missing or null value;
`fingerprint` and `tweet_id`, which the code reads with a `None` default
and compares against strings, are `Option String`. -/
structure PostRecord where
  date : String
  slot : String
  pillar : String
  format : String
  hook : String
  text : String
  status : String
  fingerprint : Option String
  tweet_id : Option String
  posted_at_utc : String
deriving DecidableEq, Inhabited, Repr

/-- Embedding of `utils.extract_hook`: the `hook` field when truthy, else
the normalized first line of `text` (empty when `text` is also empty). -/
def extract_hook (item : PostRecord) : String :=
  if item.hook ≠ "" then normalize_text item.hook
  else
    let first_line :=
      if item.text ≠ "" then
        String.mk (item.text.data.takeWhile (fun c => c ≠ '\n'))
      else ""
    normalize_text first_line

/-- The forbidden-word list of `src/utils.py` (synchronized with rules.md). -/
def FORBIDDEN_WORDS : List String :=
  ["必ず稼げる", "保証", "確実に", "誰でも月収", "絶対に", "100%", "ノーリスク",
   "RTして", "リツイートして", "いいねして", "フォローして", "拡散希望", "広めて",
   "シェアして", "トレンド", "バズ", "バズる", "炎上", "バカ", "情弱", "養分",
   "終わってる", "無料プレゼント", "期間限定で無料", "今だけ無料", "LINE登録",
   "DM送って"]

/-- Python `str.lower`, modelled on the character ranges exercised by this
program (ASCII and fullwidth Latin capitals); other characters unchanged. -/
def pyLowerChar (c : Char) : Char :=
  if 0x41 ≤ c.toNat ∧ c.toNat ≤ 0x5a then Char.ofNat (c.toNat + 32)
  else if 0xff21 ≤ c.toNat ∧ c.toNat ≤ 0xff3a then Char.ofNat (c.toNat + 32)
  else c

def pyLower (s : String) : String := String.mk (s.data.map pyLowerChar)

/-- Does `needle` occur as a prefix of the second list? -/
def listStartsWith : List Char → List Char → Bool
  | [], _ => true
  | _ :: _, [] => false
  | a :: as, b :: bs => a = b && listStartsWith as bs

/-- Embedding of Python substring containment `needle in hay`. -/
def containsSub (needle : List Char) : List Char → Bool
  | [] => needle.isEmpty
  | c :: rest => listStartsWith needle (c :: rest) || containsSub needle rest

def strContains (hay needle : String) : Bool := containsSub needle.data hay.data

/-- Embedding of `utils.check_forbidden_words`: case-insensitive substring
scan of the forbidden list, in list order. -/
def check_forbidden_words (text : String) : List String :=
  FORBIDDEN_WORDS.filter (fun word => strContains (pyLower text) (pyLower word))

def MAX_TEXT_LENGTH : Nat := 260

/-- Embedding of `utils.validate_text_length`: `(ok, length)`. -/
def validate_text_length (text : String) : Bool × Nat :=
  (decide (text.length ≤ MAX_TEXT_LENGTH), text.length)

/-- Sort key of `get_posted_items`: `x.get("posted_at_utc", "")`. -/
def postedKey (item : PostRecord) : String := item.posted_at_utc

/-- Embedding of `utils.get_posted_items`: records with status `posted`,
stably sorted most-recent-first by `posted_at_utc` (Python's
`list.sort(key=..., reverse=True)` is a stable descending sort; a missing
timestamp is the key `""`, which sorts as earliest), truncated to `limit`. -/
def get_posted_items (queue : List PostRecord) (limit : Nat) : List PostRecord :=
  let posted := queue.filter (fun item => item.status == "posted")
  (posted.mergeSort (fun x y => decide (postedKey y ≤ postedKey x))).take limit

/-- Embedding of `utils.check_fingerprint_duplicate`. -/
def check_fingerprint_duplicate (fingerprint : String) (queue : List PostRecord)
    (limit : Nat) : Bool :=
  (get_posted_items queue limit).any (fun item => item.fingerprint == some fingerprint)

/-- Embedding of `utils.check_hook_duplicate`. -/
def check_hook_duplicate (hook : String) (queue : List PostRecord)
    (limit : Nat) : Bool :=
  let posted := get_posted_items queue limit
  let normalized_hook := normalize_text hook
  posted.any (fun item => normalize_text (extract_hook item) == normalized_hook)

end Utils

/-! ### scripts/generate_queue.py — Post Composer -/

namespace GenerateQueue

open Utils

/-- The global `random` generator, modelled as an explicit stream of
naturals; each draw consumes one stream value and uses it as an index
modulo the pool size (an exhausted stream yields index 0). -/
abbrev Rand := List Nat

def rNext : Rand → Nat × Rand
  | [] => (0, [])
  | n :: rest => (n, rest)

/-- Model of `random.choice`: pick the element indexed by the next stream
value.  `dflt` is returned for an empty pool, where Python would raise;
every call site below either guards non-emptiness as the source does or
supplies the default the source supplies. -/
def rChoice (l : List α) (dflt : α) (r : Rand) : α × Rand :=
  let (n, r') := rNext r
  (l.getD (n % l.length) dflt, r')

/-- Model of `random.sample`: `k` draws without replacement. -/
def rSample : List α → Nat → Rand → List α × Rand
  | _, 0, r => ([], r)
  | [], _ + 1, r => ([], r)
  | a :: l, k + 1, r =>
    let (n, r') := rNext r
    let i := n % (a :: l).length
    let x := (a :: l).getD i a
    let (xs, r'') := rSample ((a :: l).eraseIdx i) k r'
    (x :: xs, r'')

/-- Worker for Python `str.replace` on character lists, structurally
recursive on the text: each step consumes one character; `skip > 0` means
that many characters still belong to the occurrence just replaced. -/
def replAux (old new : List Char) : Nat → List Char → List Char
  | _, [] => []
  | skip + 1, _ :: rest => replAux old new skip rest
  | 0, a :: rest =>
    if listStartsWith old (a :: rest) ∧ old ≠ [] then
      new ++ replAux old new (old.length - 1) rest
    else a :: replAux old new 0 rest

/-- Embedding of Python `str.replace` on character lists: replace every
non-overlapping occurrence of `old`, left to right (`old` is never empty
at the call sites). -/
def replaceChars (s old new : List Char) : List Char :=
  replAux old new 0 s

/-- Embedding of Python `str.replace`. -/
def pyReplace (s old new : String) : String :=
  String.mk (replaceChars s.data old.data new.data)

/-- A JSON value that is either a bare count or a list of candidate counts
(the code accepts both for `f"{item_type}_count"`). -/
inductive CountVal
  | int (n : Nat)
  | list (l : List Nat)
deriving DecidableEq

/-- One template entry; JSON key `structure` is the field `structure_`.
`Option` fields model keys the code reads with `.get` and a non-empty
default; plain list fields model keys read with `.get(key, [])`. -/
structure Template where
  structure_ : Option String := none
  format : Option String := none
  hook_patterns : List String := []
  closing_patterns : List String := []
  lesson_patterns : List String := []
  advice_patterns : List String := []
  items_format : Option String := none
  items_count : Option CountVal := none
  steps_format : Option String := none
  steps_count : Option CountVal := none
deriving Inhabited, DecidableEq

/-- The `options` two-option pair of a pillar. -/
structure OptionsPair where
  option_a : Option String := none
  option_b : Option String := none
deriving Inhabited, DecidableEq

/-- One pillar entry.  `options = none` models a missing or empty dict
(both falsy in the source); `actions = none` models a missing key, which
the source reads with default `["対応"]` in `generate_hook` and `[]`
elsewhere. -/
structure Pillar where
  topic : Option String := none
  actions : Option (List String) := none
  options : Option OptionsPair := none
  check_items : List String := []
  cautions : List String := []
  story_elements : List String := []
  examples : List String := []
deriving Inhabited, DecidableEq

/-- The `common` part of the lexicon (`common.get("counts", ["5"])`). -/
structure Common where
  counts : Option (List String) := none
deriving Inhabited, DecidableEq

/-- The `hashtags` configuration of the lexicon. -/
structure HashtagsCfg where
  required : List String := []
  pillar : List (String × List String) := []
deriving Inhabited, DecidableEq

/-- The lexicon document; `pillars` is insertion-ordered like the JSON
object it models. -/
structure Lexicon where
  pillars : List (String × Pillar) := []
  common : Common := {}
  hashtags : HashtagsCfg := {}
deriving Inhabited, DecidableEq

/-- The templates document (`templates.get("templates", {})`). -/
structure TemplatesDoc where
  templates : List (String × List Template) := []
deriving Inhabited, DecidableEq

/-- Embedding of `generate_queue.generate_hook`. -/
def generate_hook (template : Template) (pillar_data : Pillar)
    (common : Common) (r : Rand) : String × Rand :=
  let hook_patterns := template.hook_patterns
  if hook_patterns = [] then ("", r)
  else
    let (pattern, r) := rChoice hook_patterns "" r
    let (count, r) := rChoice (common.counts.getD ["5"]) "5" r
    let (action, r) := rChoice (pillar_data.actions.getD ["対応"]) "対応" r
    let option_a := match pillar_data.options with
      | some o => o.option_a.getD "A"
      | none => "A"
    let option_b := match pillar_data.options with
      | some o => o.option_b.getD "B"
      | none => "B"
    let pattern := pyReplace pattern "{pillar_topic}" (pillar_data.topic.getD "")
    let pattern := pyReplace pattern "{count}" count
    let pattern := pyReplace pattern "{action}" action
    let pattern := pyReplace pattern "{option_a}" option_a
    let pattern := pyReplace pattern "{option_b}" option_b
    (pattern, r)

/-- Embedding of `generate_queue.generate_items`; `item_type` is `"items"`
or `"steps"`, selecting the fields named by `f"{item_type}_format"` and
`f"{item_type}_count"`.  The numbered style indexes the six-glyph string
`①②③④⑤⑥`, where Python raises past index 5 and the model yields `' '`. -/
def generate_items (template : Template) (pillar_data : Pillar)
    (item_type : String) (r : Rand) : String × Rand :=
  let items_format := (if item_type = "items" then template.items_format
    else template.steps_format).getD "bullet"
  let item_count := (if item_type = "items" then template.items_count
    else template.steps_count).getD (CountVal.list [4])
  let (count, r) := match item_count with
    | CountVal.list l => rChoice l 4 r
    | CountVal.int n => (n, r)
  let all_items : List String :=
    if item_type = "items" then pillar_data.check_items ++ pillar_data.cautions
    else if item_type = "steps" then
      pillar_data.actions.getD [] ++ pillar_data.check_items
    else pillar_data.check_items
  let count := if all_items.length < count then all_items.length else count
  let (selected, r) := if all_items = [] then ([], r) else rSample all_items count r
  if items_format = "checkbox" then
    (String.intercalate "\n" (selected.map (fun item => "☑ " ++ item)), r)
  else if items_format = "numbered" then
    (String.intercalate "\n" (selected.enum.map (fun p =>
      String.mk ["①②③④⑤⑥".data.getD p.1 ' '] ++ " " ++ p.2)), r)
  else
    (String.intercalate "\n" (selected.map (fun item => "・" ++ item)), r)

/-- Embedding of `generate_queue.generate_closing`. -/
def generate_closing (template : Template) (r : Rand) : String × Rand :=
  if template.closing_patterns ≠ [] then rChoice template.closing_patterns "" r
  else ("", r)

/-- Embedding of `generate_queue.generate_story_body`. -/
def generate_story_body (pillar_data : Pillar) (r : Rand) : String × Rand :=
  let (parts, r) :=
    if pillar_data.story_elements ≠ [] then
      let (x, r) := rChoice pillar_data.story_elements "" r
      ([x], r)
    else ([], r)
  let (parts, r) :=
    if pillar_data.examples ≠ [] then
      let (y, r) := rChoice pillar_data.examples "" r
      (parts ++ [y], r)
    else (parts, r)
  (if parts ≠ [] then String.intercalate "\n" parts else "実際にあった話です。", r)

/-- Embedding of `generate_queue.generate_criteria_body`. -/
def generate_criteria_body (pillar_data : Pillar) (r : Rand) : String × Rand :=
  let pool := pillar_data.cautions ++ pillar_data.check_items
  let (items, r) := rSample pool (min 3 pool.length) r
  (String.intercalate "\n" (items.map (fun item => "・" ++ item)), r)

/-- Embedding of `generate_queue.generate_options`. -/
def generate_options (pillar_data : Pillar) (r : Rand) : String × Rand :=
  let actions := pillar_data.actions.getD []
  match pillar_data.options with
  | some options =>
    ("A: " ++ options.option_a.getD "A" ++ "\nB: " ++ options.option_b.getD "B", r)
  | none =>
    if 2 ≤ actions.length then
      let (selected, r) := rSample actions 2 r
      ("A: " ++ selected.getD 0 "" ++ "\nB: " ++ selected.getD 1 "", r)
    else ("A: する\nB: しない", r)

/-- Embedding of `generate_queue.generate_lesson`. -/
def generate_lesson (template : Template) (r : Rand) : String × Rand :=
  if template.lesson_patterns ≠ [] then rChoice template.lesson_patterns "" r
  else ("", r)

/-- Embedding of `generate_queue.generate_post_text`: returns
`(hook, normalized full text)`.  The `parts` substitutions are built and
applied in the dict's insertion order, exactly as in the source. -/
def generate_post_text (template : Template) (pillar_data : Pillar)
    (common : Common) (r : Rand) : (String × String) × Rand :=
  let structure_ := template.structure_.getD "{hook}"
  let (hook, r) := generate_hook template pillar_data common r
  let (closing, r) := generate_closing template r
  let (items, r) := generate_items template pillar_data "items" r
  let (steps, r) := generate_items template pillar_data "steps" r
  let (template_body, r) := generate_story_body pillar_data r
  let (comparison, r) := generate_criteria_body pillar_data r
  let (story_body, r) := generate_story_body pillar_data r
  let (lesson, r) := generate_lesson template r
  let (criteria_body, r) := generate_criteria_body pillar_data r
  let (options, r) := generate_options pillar_data r
  let (context, r) := generate_closing template r
  let (insight, r) := generate_story_body pillar_data r
  let (case_description, r) := generate_story_body pillar_data r
  let advice := if template.advice_patterns ≠ [] then
      template.advice_patterns.getD 0 "専門家に相談を"
    else "専門家に相談を"
  let parts : List (String × String) :=
    [("{hook}", hook), ("{closing}", closing), ("{items}", items),
     ("{steps}", steps), ("{template_body}", template_body),
     ("{comparison}", comparison), ("{story_body}", story_body),
     ("{lesson}", lesson), ("{criteria_body}", criteria_body),
     ("{options}", options), ("{context}", context), ("{insight}", insight),
     ("{case_description}", case_description), ("{advice}", advice)]
  let text := parts.foldl (fun t p => pyReplace t p.1 p.2) structure_
  ((hook, normalize_text text), r)

/-- Embedding of `generate_queue.generate_hashtags`. -/
def generate_hashtags (lexicon : Lexicon) (pillar_key : String) (r : Rand) :
    String × Rand :=
  let hashtags_config := lexicon.hashtags
  let required := hashtags_config.required
  let pillar_tags := (hashtags_config.pillar.lookup pillar_key).getD []
  let (tags, r) :=
    if pillar_tags ≠ [] then
      let (t, r) := rChoice pillar_tags "" r
      (required ++ [t], r)
    else (required, r)
  (String.intercalate " " tags, r)

/-- The retry loop of `generate_single_post`: up to `fuel` (source: 5)
attempts while the normalized hook is already in the used set; a
non-colliding attempt records its normalized hook and stops; exhaustion
keeps the last attempt's hook and text and records nothing. -/
def hookRetry (template : Template) (pillar_data : Pillar) (common : Common) :
    Nat → List String → Rand → (String × String) × List String × Rand
  | 0, used, r => (("", ""), used, r)
  | fuel + 1, used, r =>
    let ((hook, text), r') := generate_post_text template pillar_data common r
    let normalized_hook := normalize_text hook
    if normalized_hook ∉ used then ((hook, text), normalized_hook :: used, r')
    else if fuel = 0 then ((hook, text), used, r')
    else hookRetry template pillar_data common fuel used r'

/-- Embedding of `generate_queue.generate_single_post`.  Returns the
produced record (or `none`), the updated used-hook set, and the remaining
random stream.  The source's `"posted_at_utc": None` is the sentinel `""`
(see `PostRecord`). -/
def generate_single_post (date slot : String) (templates : TemplatesDoc)
    (lexicon : Lexicon) (used_hooks : List String) (r : Rand) :
    Option PostRecord × List String × Rand :=
  let slot_templates := (templates.templates.lookup slot).getD []
  let pillars := lexicon.pillars
  let common := lexicon.common
  if slot_templates = [] ∨ pillars = [] then (none, used_hooks, r)
  else
    let (template, r) := rChoice slot_templates {} r
    let (pillar_key, r) := rChoice (pillars.map Prod.fst) "" r
    let pillar_data := (pillars.lookup pillar_key).getD {}
    let ((hook, text), used_hooks, r) :=
      hookRetry template pillar_data common 5 used_hooks r
    let (hashtags, r) := generate_hashtags lexicon pillar_key r
    let text := if hashtags ≠ "" then text ++ "\n\n" ++ hashtags else text
    let fingerprint := calculate_fingerprint text
    (some { date := date, slot := slot, pillar := pillar_key,
            format := template.format.getD "", hook := hook, text := text,
            status := "draft", fingerprint := some fingerprint,
            tweet_id := none, posted_at_utc := "" }, used_hooks, r)

/-- The hook/text pair produced by the `(k+1)`-th iteration of the retry
loop of `generate_single_post` (each iteration re-runs
`generate_post_text` on the stream state the previous one left). -/
def nthAttempt (template : Template) (pillar_data : Pillar) (common : Common)
    (r : Rand) : Nat → (String × String) × Rand
  | 0 => generate_post_text template pillar_data common r
  | k + 1 => generate_post_text template pillar_data common
      (nthAttempt template pillar_data common r k).2

end GenerateQueue

/-! ### scripts/validate_queue.py — Validator (length rule) -/

namespace ValidateQueue

open Utils

/-- Embedding of `validate_queue.validate_text_length`: the per-record
length errors, in source order. -/
def validate_text_length (item : PostRecord) (index : Nat) : List String :=
  let text := item.text
  let length := text.length
  (if length > MAX_TEXT_LENGTH then
    [s!"[{index}] Text too long: {length} chars (max 260)"] else []) ++
  (if length < 10 then
    [s!"[{index}] Text too short: {length} chars (suspicious)"] else [])

end ValidateQueue

/-! ### scripts/approve_range.py — Lifecycle Controller (range approval) -/

namespace ApproveRange

open Utils

/-- A parsed calendar date (the date part of a Python `datetime`). -/
structure PyDate where
  year : Nat
  month : Nat
  day : Nat
deriving DecidableEq

/-- Comparison key; faithful for parser outputs, whose month and day are
below 100. -/
def PyDate.key (d : PyDate) : Nat := d.year * 10000 + d.month * 100 + d.day

def PyDate.le (a b : PyDate) : Bool := decide (a.key ≤ b.key)

def PyDate.lt (a b : PyDate) : Bool := decide (a.key < b.key)

def isLeap (y : Nat) : Bool := y % 4 = 0 && (y % 100 ≠ 0 || y % 400 = 0)

def daysInMonth (y m : Nat) : Nat :=
  if m = 2 then (if isLeap y then 29 else 28)
  else if m ∈ [4, 6, 9, 11] then 30 else 31

def isDigit (c : Char) : Bool := decide ('0' ≤ c) && decide (c ≤ '9')

def digitVal (c : Char) : Nat := c.toNat - 48

def digit19 (c : Char) : Bool := decide ('1' ≤ c) && decide (c ≤ '9')

/-- The two-digit month alternatives of `_strptime`'s regex
(`1[0-2]|0[1-9]`). -/
def month2 (a b : Char) : Bool :=
  (a = '1' && (decide ('0' ≤ b) && decide (b ≤ '2'))) ||
  (a = '0' && digit19 b)

/-- The two-digit day alternatives of `_strptime`'s regex
(`3[01]|[12]\d|0[1-9]`). -/
def day2 (a b : Char) : Bool :=
  (a = '3' && (b = '0' || b = '1')) ||
  ((a = '1' || a = '2') && isDigit b) ||
  (a = '0' && digit19 b)

/-- Day-of-month with the regex's backtracking: a valid two-digit day
consuming the whole remainder, else a single digit `1`–`9` consuming the
whole remainder. -/
def parseDayEnd : List Char → Option Nat
  | [a] => if digit19 a then some (digitVal a) else none
  | [a, b] => if day2 a b then some (digitVal a * 10 + digitVal b) else none
  | _ => none

/-- Month then `-` then day, with the regex's backtracking: a two-digit
month is taken when the following character is the dash; otherwise a
single digit `1`–`9` followed by the dash. -/
def parseMonthDay : List Char → Option (Nat × Nat)
  | a :: b :: rest =>
    if b = '-' then
      if digit19 a then (parseDayEnd rest).map (fun d => (digitVal a, d))
      else none
    else if month2 a b then
      match rest with
      | '-' :: rest' =>
        (parseDayEnd rest').map (fun d => (digitVal a * 10 + digitVal b, d))
      | _ => none
    else none
  | _ => none

/-- Embedding of `approve_range.parse_date`
(`datetime.strptime(date_str, "%Y-%m-%d")`): exactly four ASCII digits of
year, a dash, a one- or two-digit month, a dash, a one- or two-digit day,
end of string; then the calendar validation `datetime` performs (year at
least 1, day within the month, leap years).  `none` where Python raises
`ValueError`. -/
def parse_date (s : String) : Option PyDate :=
  match s.data with
  | y1 :: y2 :: y3 :: y4 :: '-' :: rest =>
    if isDigit y1 && isDigit y2 && isDigit y3 && isDigit y4 then
      let y := ((digitVal y1 * 10 + digitVal y2) * 10 + digitVal y3) * 10 + digitVal y4
      match parseMonthDay rest with
      | some (m, d) =>
        if 1 ≤ y ∧ d ≤ daysInMonth y m then some ⟨y, m, d⟩ else none
      | none => none
    else none
  | _ => none

/-- Embedding of `approve_range.is_in_range`: malformed record dates are
out-of-range, not errors. -/
def is_in_range (date_str : String) (from_date to_date : PyDate) : Bool :=
  match parse_date date_str with
  | some date => PyDate.le from_date date && PyDate.le date to_date
  | none => false

/-- Outcome of `approve_range.main`: `error` models a non-zero exit;
`ok` carries the final queue state, the approved count, and whether the
queue document was written back. -/
inductive ApproveResult
  | error (msg : String)
  | ok (queue : List PostRecord) (approved_count : Nat) (saved : Bool)
deriving DecidableEq

/-- Embedding of `approve_range.main` after CLI parsing: `from_str` and
`to_str` are the `--from`/`--to` arguments, `dry_run` the flag, `queue`
the loaded document. -/
def approveMain (from_str to_str : String) (dry_run : Bool)
    (queue : List PostRecord) : ApproveResult :=
  match parse_date from_str, parse_date to_str with
  | some from_date, some to_date =>
    if PyDate.lt to_date from_date then
      ApproveResult.error "Error: --from date must be before or equal to --to date"
    else if queue = [] then ApproveResult.ok queue 0 false
    else
      let matched := fun item =>
        item.status == "draft" && is_in_range item.date from_date to_date
      let approved_count := (queue.filter matched).length
      if dry_run then ApproveResult.ok queue approved_count false
      else
        let queue' := queue.map (fun item =>
          if matched item then { item with status := "approved" } else item)
        ApproveResult.ok queue' approved_count (approved_count ≠ 0)
  | _, _ => ApproveResult.error "Invalid date format"

end ApproveRange

/-! ### src/post_slot.py — dispatch -/

namespace PostSlot

open Utils

/-- Predicate selecting the dispatch target in `find_target_post`. -/
def targetPred (today slot : String) (item : PostRecord) : Bool :=
  item.date == today && item.slot == slot && item.status == "approved"

/-- Embedding of `post_slot.find_target_post`; `today` is the ambient
`today_jst()` value, passed explicitly. -/
def find_target_post (today : String) (queue : List PostRecord)
    (slot : String) : Option PostRecord :=
  queue.find? (targetPred today slot)

/-- Embedding of `post_slot.validate_post`: `ok ()` when all four checks
pass, else the `PostValidationError` message of the first failing check. -/
def validate_post (item : PostRecord) (queue : List PostRecord) :
    Except String Unit :=
  let text := item.text
  let v := validate_text_length text
  if !v.1 then Except.error s!"Text too long: {v.2} chars (max 260)"
  else
    let forbidden := check_forbidden_words text
    if forbidden ≠ [] then
      Except.error ("Forbidden words found: " ++ String.intercalate ", " forbidden)
    else
      let fingerprint := match item.fingerprint with
        | some fp => if fp = "" then calculate_fingerprint text else fp
        | none => calculate_fingerprint text
      if check_fingerprint_duplicate fingerprint queue 50 then
        Except.error "Duplicate fingerprint detected"
      else
        let hook := extract_hook item
        if check_hook_duplicate hook queue 14 then
          Except.error ("Duplicate hook detected: " ++ hook.take 30 ++ "...")
        else Except.ok ()

/-- The record update of `post_slot.update_posted_item`. -/
def update_posted_item (item : PostRecord) (tweet_id now_utc : String) :
    PostRecord :=
  { item with
      status := "posted"
      tweet_id := some tweet_id
      posted_at_utc := now_utc }

/-- Exit class of `post_slot.main`. -/
inductive DispatchOutcome
  | invalidSlot
  | emptyQueue
  | noTarget
  | validationFailed (msg : String)
  | dryRunStop
  | apiError (msg : String)
  | posted (tweet_id : String)
deriving DecidableEq

/-- Observable effects of one `post_slot.main` run: its exit class, the
queue document written back (`none` = never written), and whether the
publish endpoint was called. -/
structure DispatchEffects where
  outcome : DispatchOutcome
  saved_queue : Option (List PostRecord)
  publish_called : Bool
deriving DecidableEq

/-- Embedding of `post_slot.main` after CLI parsing.  `slot` is the `SLOT`
environment value, `today` the ambient `today_jst()`, `now_utc` the
ambient `utc_iso()`; `auth` models `get_oauth1_session` (fails when
credentials are missing, before any network call) and `publish` models
`post_tweet` against the publisher collaborator. -/
def post_slot_main (slot : String) (dry_run : Bool)
    (queue : List PostRecord) (today : String) (auth : Except String Unit)
    (publish : Except String String) (now_utc : String) : DispatchEffects :=
  if !(slot == "17" || slot == "19") then ⟨.invalidSlot, none, false⟩
  else if queue = [] then ⟨.emptyQueue, none, false⟩
  else
    match find_target_post today queue slot with
    | none => ⟨.noTarget, none, false⟩
    | some target =>
      match validate_post target queue with
      | .error e => ⟨.validationFailed e, none, false⟩
      | .ok _ =>
        if dry_run then ⟨.dryRunStop, none, false⟩
        else
          match auth with
          | .error e => ⟨.apiError e, none, false⟩
          | .ok _ =>
            match publish with
            | .error e => ⟨.apiError e, none, true⟩
            | .ok tweet_id =>
              let i := queue.findIdx (targetPred today slot)
              let queue' := queue.set i (update_posted_item target tweet_id now_utc)
              ⟨.posted tweet_id, some queue', true⟩

end PostSlot

/-! ## Theorems

First the Normalizer: output invariants of each of the three passes of
`normalize_text`, each pass's identity on already-normal input, and
idempotence of the composite. -/

namespace Utils

/-- Unfolding helper: `noDbl` of a cons whose head is not space-or-tab. -/
theorem noDbl_cons_not_sp {a : Char} {l : List Char} (ha : isSpTab a = false)
    (hl : noDbl l = true) : noDbl (a :: l) = true := by
  cases l with
  | nil => rfl
  | cons b r => simp [noDbl, ha, hl]

theorem noDbl_tail {a : Char} {l : List Char} (h : noDbl (a :: l) = true) :
    noDbl l = true := by
  cases l with
  | nil => rfl
  | cons b r =>
    simp only [noDbl, Bool.and_eq_true] at h
    exact h.2

theorem noDbl_head {a b : Char} {l : List Char}
    (h : noDbl (a :: b :: l) = true) : (isSpTab a && isSpTab b) = false := by
  simp only [noDbl, Bool.and_eq_true, Bool.not_eq_true'] at h
  exact h.1

theorem noTriple_tail {a : Char} {l : List Char} (h : noTriple (a :: l) = true) :
    noTriple l = true := by
  cases l with
  | nil => rfl
  | cons b r =>
    cases r with
    | nil => rfl
    | cons c r' =>
      simp only [noTriple, Bool.and_eq_true] at h
      exact h.2

theorem noDbl_append_right {s l : List Char} (h : noDbl (s ++ l) = true) :
    noDbl l = true := by
  induction s with
  | nil => exact h
  | cons a s ih => exact ih (noDbl_tail h)

theorem noDbl_append_left {l t : List Char} (h : noDbl (l ++ t) = true) :
    noDbl l = true := by
  induction l with
  | nil => rfl
  | cons a l ih =>
    cases l with
    | nil => rfl
    | cons b r =>
      simp only [List.cons_append, noDbl, Bool.and_eq_true] at h ⊢
      exact ⟨h.1, by
        have := ih (by simpa [List.cons_append] using h.2)
        simpa [noDbl] using this⟩


theorem csAux_no_tab (l : List Char) : ∀ b, '\t' ∉ collapseSpacesAux b l := by
  induction l with
  | nil => intro b h; simp [collapseSpacesAux] at h
  | cons c rest ih =>
    intro b
    by_cases hc : isSpTab c = true
    · cases b with
      | true =>
        simp only [collapseSpacesAux, hc, if_true]
        exact ih true
      | false =>
        simp only [collapseSpacesAux, hc, if_true]
        intro h
        rcases List.mem_cons.mp h with h1 | h2
        · exact absurd h1 (by decide)
        · exact ih true h2
    · simp only [collapseSpacesAux, hc, if_false, Bool.false_eq_true]
      intro h
      rcases List.mem_cons.mp h with h1 | h2
      · exact hc (by simp [isSpTab, ← h1])
      · exact ih false h2

theorem csAux_true_head (l : List Char) {d : Char}
    (h : (collapseSpacesAux true l).head? = some d) : isSpTab d = false := by
  induction l with
  | nil => simp [collapseSpacesAux] at h
  | cons c rest ih =>
    by_cases hc : isSpTab c = true
    · simp only [collapseSpacesAux, hc, if_true] at h
      exact ih h
    · simp only [collapseSpacesAux, hc, if_false, Bool.false_eq_true,
        List.head?_cons, Option.some.injEq] at h
      subst h
      exact Bool.not_eq_true _ ▸ (by simpa using hc)

theorem csAux_noDbl (l : List Char) : ∀ b, noDbl (collapseSpacesAux b l) = true := by
  induction l with
  | nil => intro b; rfl
  | cons c rest ih =>
    intro b
    by_cases hc : isSpTab c = true
    · cases b with
      | true =>
        simp only [collapseSpacesAux, hc, if_true]
        exact ih true
      | false =>
        simp only [collapseSpacesAux, hc, if_true]
        cases hx : collapseSpacesAux true rest with
        | nil => simp [noDbl]
        | cons d' r' =>
          have hd : isSpTab d' = false := csAux_true_head rest (by rw [hx]; rfl)
          have hnd : noDbl (d' :: r') = true := by rw [← hx]; exact ih true
          simp [noDbl, hd, hnd]
    · have hrec := ih false
      simp only [collapseSpacesAux, hc, if_false, Bool.false_eq_true]
      exact noDbl_cons_not_sp (by simpa using hc) hrec

theorem csAux_id (l : List Char) : ∀ b : Bool,
    '\t' ∉ l → noDbl l = true →
    (b = true → ∀ d, l.head? = some d → isSpTab d = false) →
    collapseSpacesAux b l = l := by
  induction l with
  | nil => intro b _ _ _; rfl
  | cons c rest ih =>
    intro b htab hdbl hb
    by_cases hc : isSpTab c = true
    · have hcsp : c = ' ' := by
        rcases (by simpa [isSpTab] using hc : c = ' ' ∨ c = '\t') with h | h
        · exact h
        · exact absurd (h ▸ List.mem_cons_self c rest) htab
      have hb' : b = false := by
        cases b with
        | false => rfl
        | true => exact absurd (hb rfl c rfl) (by simp [hc])
      subst hb'
      simp only [collapseSpacesAux, hc, if_true]
      rw [if_neg (by simp)]
      rw [← hcsp]
      congr 1
      apply ih true (fun h => htab (List.mem_cons_of_mem _ h)) (noDbl_tail hdbl)
      intro _ d hd
      cases rest with
      | nil => simp at hd
      | cons e r =>
        simp only [List.head?_cons, Option.some.injEq] at hd
        subst hd
        have := noDbl_head hdbl
        simpa [hc] using this
    · simp only [collapseSpacesAux, hc, if_false, Bool.false_eq_true]
      congr 1
      exact ih false (fun h => htab (List.mem_cons_of_mem _ h)) (noDbl_tail hdbl)
        (fun h => nomatch h)

theorem leadNl_cons_nl (xs : List Char) : leadNl ('\n' :: xs) = leadNl xs + 1 := by
  simp [leadNl]

theorem leadNl_cons_other {c : Char} (hc : c ≠ '\n') (xs : List Char) :
    leadNl (c :: xs) = 0 := by
  simp [leadNl, hc]

theorem cap0_head (l : List Char) : (capNlAux 0 l).head? = l.head? := by
  cases l with
  | nil => rfl
  | cons c rest =>
    by_cases hc : c = '\n'
    · subst hc; simp [capNlAux]
    · simp [capNlAux, hc]

theorem capNl_subset (l : List Char) : ∀ seen, capNlAux seen l ⊆ l := by
  induction l with
  | nil => intro seen; simp [capNlAux]
  | cons c rest ih =>
    intro seen
    by_cases hc : c = '\n'
    · subst hc
      by_cases hs : 2 ≤ seen
      · simp only [capNlAux, if_pos rfl, if_pos hs]
        exact (ih seen).trans (List.subset_cons_self _ _)
      · simp only [capNlAux, if_pos rfl, if_neg hs]
        exact List.cons_subset_cons _ (ih (seen + 1))
    · simp only [capNlAux, if_neg hc]
      exact List.cons_subset_cons _ (ih 0)

theorem capNl_noDbl (l : List Char) : ∀ seen, noDbl l = true →
    noDbl (capNlAux seen l) = true := by
  induction l with
  | nil => intro seen _; rfl
  | cons c rest ih =>
    intro seen h
    by_cases hc : c = '\n'
    · subst hc
      by_cases hs : 2 ≤ seen
      · simp only [capNlAux, if_pos rfl, if_pos hs]
        exact ih seen (noDbl_tail h)
      · simp only [capNlAux, if_pos rfl, if_neg hs]
        exact noDbl_cons_not_sp (by decide) (ih (seen + 1) (noDbl_tail h))
    · simp only [capNlAux, if_neg hc]
      by_cases hsp : isSpTab c = true
      · have hrec := ih 0 (noDbl_tail h)
        cases hx : capNlAux 0 rest with
        | nil => simp [noDbl]
        | cons d r' =>
          cases rest with
          | nil => simp [capNlAux] at hx
          | cons e r2 =>
            have hdhead : e = d := by
              have := cap0_head (e :: r2)
              rw [hx] at this
              simpa using this.symm
            have hpair := noDbl_head h
            have hd : isSpTab d = false := by
              rw [← hdhead]
              rcases Bool.and_eq_false_iff.mp hpair with h1 | h1
              · rw [hsp] at h1; exact absurd h1 (by simp)
              · exact h1
            rw [hx] at hrec
            simp [noDbl, hd, hrec]
      · exact noDbl_cons_not_sp (by simpa using hsp) (ih 0 (noDbl_tail h))

theorem noTriple_cons_of {x : Char} {xs : List Char} (hxs : noTriple xs = true)
    (h : x ≠ '\n' ∨ leadNl xs ≤ 1) : noTriple (x :: xs) = true := by
  cases xs with
  | nil => rfl
  | cons b r =>
    cases r with
    | nil => rfl
    | cons c r' =>
      simp only [noTriple, Bool.and_eq_true]
      refine ⟨?_, hxs⟩
      rcases h with h | h
      · simp [h]
      · by_cases hb : b = '\n'
        · by_cases hcn : c = '\n'
          · exfalso
            simp [leadNl, hb, hcn] at h
          · simp [hcn]
        · simp [hb]

theorem capNl_inv (l : List Char) : ∀ seen, seen ≤ 2 →
    leadNl (capNlAux seen l) ≤ 2 - seen ∧ noTriple (capNlAux seen l) = true := by
  induction l with
  | nil => intro seen _; exact ⟨by simp [capNlAux, leadNl], rfl⟩
  | cons c rest ih =>
    intro seen hseen
    by_cases hc : c = '\n'
    · subst hc
      by_cases hs : 2 ≤ seen
      · simp only [capNlAux, if_pos rfl, if_pos hs]
        exact ih seen hseen
      · simp only [capNlAux, if_pos rfl, if_neg hs]
        obtain ⟨ihl, ihn⟩ := ih (seen + 1) (by omega)
        refine ⟨?_, noTriple_cons_of ihn (Or.inr (by omega))⟩
        show leadNl ('\n' :: capNlAux (seen + 1) rest) ≤ 2 - seen
        rw [leadNl_cons_nl]
        omega
    · simp only [capNlAux, if_neg hc]
      obtain ⟨ihl, ihn⟩ := ih 0 (by omega)
      exact ⟨by rw [leadNl_cons_other hc]; omega, noTriple_cons_of ihn (Or.inl hc)⟩

theorem leadNl_le_two_of_noTriple (l : List Char) (h : noTriple l = true) :
    leadNl l ≤ 2 := by
  cases l with
  | nil => simp [leadNl]
  | cons a r =>
    by_cases ha : a = '\n'
    · cases r with
      | nil => simp [leadNl, ha]
      | cons b r' =>
        by_cases hb : b = '\n'
        · cases r' with
          | nil => simp [leadNl, ha, hb]
          | cons c r'' =>
            by_cases hcn : c = '\n'
            · exfalso
              subst ha hb hcn
              simp [noTriple] at h
            · simp [leadNl, ha, hb, hcn]
        · simp [leadNl, ha, hb]
    · simp [leadNl, ha]

theorem capNl_id (l : List Char) : ∀ seen, seen ≤ 2 → noTriple l = true →
    leadNl l ≤ 2 - seen → capNlAux seen l = l := by
  induction l with
  | nil => intro _ _ _ _; rfl
  | cons c rest ih =>
    intro seen hseen htr hlead
    by_cases hc : c = '\n'
    · subst hc
      have hlead2 : leadNl rest + 1 ≤ 2 - seen := by
        rw [leadNl_cons_nl] at hlead
        exact hlead
      have hs : ¬ 2 ≤ seen := by omega
      simp only [capNlAux, if_pos rfl, if_neg hs]
      show '\n' :: capNlAux (seen + 1) rest = '\n' :: rest
      congr 1
      exact ih (seen + 1) (by omega) (noTriple_tail htr) (by omega)
    · simp only [capNlAux, if_neg hc]
      congr 1
      exact ih 0 (by omega) (noTriple_tail htr)
        (by simpa using leadNl_le_two_of_noTriple rest (noTriple_tail htr))

theorem noTriple_append_right {s l : List Char} (h : noTriple (s ++ l) = true) :
    noTriple l = true := by
  induction s with
  | nil => exact h
  | cons a s ih => exact ih (noTriple_tail h)

theorem noTriple_append_left {l t : List Char} (h : noTriple (l ++ t) = true) :
    noTriple l = true := by
  induction l with
  | nil => rfl
  | cons a l ih =>
    cases l with
    | nil => rfl
    | cons b r =>
      cases r with
      | nil => rfl
      | cons c r' =>
        simp only [List.cons_append, noTriple, Bool.and_eq_true] at h ⊢
        exact ⟨h.1, by
          have := ih (by simpa [List.cons_append] using h.2)
          simpa [noTriple] using this⟩


theorem head_dropWhile (p : Char → Bool) (l : List Char) :
    ∀ c, (l.dropWhile p).head? = some c → p c = false := by
  induction l with
  | nil => intro c h; simp at h
  | cons a r ih =>
    intro c h
    by_cases ha : p a = true
    · rw [List.dropWhile_cons, if_pos ha] at h
      exact ih c h
    · rw [List.dropWhile_cons, if_neg ha] at h
      simp only [List.head?_cons, Option.some.injEq] at h
      subst h
      simpa using ha

theorem dropWhile_eq_self (p : Char → Bool) (l : List Char)
    (h : ∀ c, l.head? = some c → p c = false) : l.dropWhile p = l := by
  cases l with
  | nil => rfl
  | cons a r => rw [List.dropWhile_cons, if_neg (by simp [h a rfl])]

theorem dropEndSpace_prefix (l : List Char) : dropEndSpace l <+: l := by
  obtain ⟨t, ht⟩ := @List.dropWhile_suffix _ l.reverse pyIsSpace
  refine ⟨t.reverse, ?_⟩
  have h2 := congrArg List.reverse ht
  simpa [dropEndSpace] using h2

theorem pyStrip_subset (l : List Char) : pyStrip l ⊆ l := by
  intro x hx
  obtain ⟨u, hu⟩ := dropEndSpace_prefix (l.dropWhile pyIsSpace)
  obtain ⟨t, ht⟩ := @List.dropWhile_suffix _ l pyIsSpace
  rw [← ht]
  rw [← hu]
  exact List.mem_append_right t (List.mem_append_left u hx)

theorem noDbl_pyStrip {l : List Char} (h : noDbl l = true) :
    noDbl (pyStrip l) = true := by
  obtain ⟨t, ht⟩ := @List.dropWhile_suffix _ l pyIsSpace
  have h1 : noDbl (l.dropWhile pyIsSpace) = true := by
    rw [← ht] at h
    exact noDbl_append_right h
  obtain ⟨u, hu⟩ := dropEndSpace_prefix (l.dropWhile pyIsSpace)
  rw [← hu] at h1
  exact noDbl_append_left h1

theorem noTriple_pyStrip {l : List Char} (h : noTriple l = true) :
    noTriple (pyStrip l) = true := by
  obtain ⟨t, ht⟩ := @List.dropWhile_suffix _ l pyIsSpace
  have h1 : noTriple (l.dropWhile pyIsSpace) = true := by
    rw [← ht] at h
    exact noTriple_append_right h
  obtain ⟨u, hu⟩ := dropEndSpace_prefix (l.dropWhile pyIsSpace)
  rw [← hu] at h1
  exact noTriple_append_left h1

theorem pyStrip_head (l : List Char) :
    ∀ c, (pyStrip l).head? = some c → pyIsSpace c = false := by
  intro c h
  obtain ⟨u, hu⟩ := dropEndSpace_prefix (l.dropWhile pyIsSpace)
  apply head_dropWhile pyIsSpace l c
  rw [← hu, List.head?_append]
  have h2 : (dropEndSpace (List.dropWhile pyIsSpace l)).head? = some c := h
  rw [h2]
  rfl

theorem pyStrip_last (l : List Char) :
    ∀ c, (pyStrip l).getLast? = some c → pyIsSpace c = false := by
  intro c h
  have heq : (pyStrip l).getLast? =
      ((l.dropWhile pyIsSpace).reverse.dropWhile pyIsSpace).head? := by
    show (dropEndSpace (l.dropWhile pyIsSpace)).getLast? = _
    rw [dropEndSpace, List.getLast?_reverse]
  rw [heq] at h
  exact head_dropWhile pyIsSpace _ c h

theorem pyStrip_id {l : List Char}
    (hh : ∀ c, l.head? = some c → pyIsSpace c = false)
    (hl : ∀ c, l.getLast? = some c → pyIsSpace c = false) : pyStrip l = l := by
  have h1 : l.dropWhile pyIsSpace = l := dropWhile_eq_self pyIsSpace l hh
  show dropEndSpace (l.dropWhile pyIsSpace) = l
  rw [h1]
  show (l.reverse.dropWhile pyIsSpace).reverse = l
  have h2 : l.reverse.dropWhile pyIsSpace = l.reverse := by
    apply dropWhile_eq_self
    intro c hc
    rw [List.head?_reverse] at hc
    exact hl c hc
  rw [h2, List.reverse_reverse]


theorem wordHex_length (w : Nat) : (wordHex w).length = 8 := rfl

theorem hexChar_mem (n : Nat) : hexChar n ∈ "0123456789abcdef".data := by
  have h : n % 16 < 16 := Nat.mod_lt _ (by norm_num)
  have he : hexChar n = "0123456789abcdef".data.getD (n % 16) '0' := rfl
  rw [he, List.getD_eq_getElem?_getD,
    List.getElem?_eq_getElem (by simpa using h)]
  exact List.getElem_mem _

theorem wordHex_mem {c : Char} {w : Nat} (h : c ∈ wordHex w) :
    c ∈ "0123456789abcdef".data := by
  simp only [wordHex, List.mem_cons, List.not_mem_nil, or_false] at h
  rcases h with h | h | h | h | h | h | h | h <;> rw [h] <;> exact hexChar_mem _

theorem sha256HexBytes_length (msg : List Nat) :
    (sha256HexBytes msg).length = 64 := by
  show (String.mk _).length = 64
  simp [sha256HexBytes, String.length, List.flatten, wordHex_length]

theorem sha256HexBytes_mem (msg : List Nat) :
    ∀ c ∈ (sha256HexBytes msg).data, c ∈ "0123456789abcdef".data := by
  intro c hc
  have hc2 : c ∈ (([(sha256Words msg).a, (sha256Words msg).b,
      (sha256Words msg).c, (sha256Words msg).d, (sha256Words msg).e,
      (sha256Words msg).f, (sha256Words msg).g,
      (sha256Words msg).h].map wordHex).flatten) := hc
  rcases List.mem_flatten.mp hc2 with ⟨l, hl, hcl⟩
  rcases List.mem_map.mp hl with ⟨w, _, hw⟩
  exact wordHex_mem (hw ▸ hcl)

/-- The three passes leave the output of `normalize_text` with no tab, no
adjacent space pair, no newline triple, and no surrounding whitespace. -/
theorem normalize_out (s : String) :
    '\t' ∉ (normalize_text s).data ∧ noDbl (normalize_text s).data = true ∧
    noTriple (normalize_text s).data = true ∧
    (∀ c, (normalize_text s).data.head? = some c → pyIsSpace c = false) ∧
    (∀ c, (normalize_text s).data.getLast? = some c → pyIsSpace c = false) := by
  have hdata : (normalize_text s).data =
      pyStrip (capNlAux 0 (collapseSpacesAux false s.data)) := rfl
  refine ⟨?_, ?_, ?_, ?_, ?_⟩
  · rw [hdata]
    intro hm
    exact csAux_no_tab s.data false (capNl_subset _ 0 (pyStrip_subset _ hm))
  · rw [hdata]
    exact noDbl_pyStrip (capNl_noDbl _ 0 (csAux_noDbl s.data false))
  · rw [hdata]
    exact noTriple_pyStrip ((capNl_inv (collapseSpacesAux false s.data) 0
      (by omega)).2)
  · rw [hdata]
    exact pyStrip_head _
  · rw [hdata]
    exact pyStrip_last _

/-- Helper used by several claims: `normalize_text` is idempotent. -/
theorem normalize_text_idem_helper (s : String) :
    normalize_text (normalize_text s) = normalize_text s := by
  obtain ⟨htab, hdbl, htr, hhead, hlast⟩ := normalize_out s
  show String.mk (pyStrip (capNlAux 0 (collapseSpacesAux false
    (normalize_text s).data))) = normalize_text s
  rw [csAux_id _ false htab hdbl (fun h => nomatch h)]
  rw [capNl_id _ 0 (by omega) htr
    (by simpa using leadNl_le_two_of_noTriple _ htr)]
  rw [pyStrip_id hhead hlast]

end Utils

/-! ## Claim theorems -/

open Utils in
/-- C4: `normalize_text` is total (it is a Lean function) and idempotent:
`normalize_text (normalize_text t) = normalize_text t` for every string;
moreover its output has every space/tab run collapsed to a single space
(no tab and no adjacent space/tab pair remains), every run of 3 or more
newlines collapsed to exactly two (no newline triple remains), and leading
and trailing whitespace stripped. -/
theorem c4_normalize_idempotent (t : String) :
    normalize_text (normalize_text t) = normalize_text t ∧
    '\t' ∉ (normalize_text t).data ∧
    noDbl (normalize_text t).data = true ∧
    noTriple (normalize_text t).data = true ∧
    ((normalize_text t).data.head?.all (fun c => !pyIsSpace c)) = true ∧
    ((normalize_text t).data.getLast?.all (fun c => !pyIsSpace c)) = true := by
  obtain ⟨htab, hdbl, htr, hhead, hlast⟩ := normalize_out t
  refine ⟨normalize_text_idem_helper t, htab, hdbl, htr, ?_, ?_⟩
  · cases hh : (normalize_text t).data.head? with
    | none => rfl
    | some c => simpa using hhead c hh
  · cases hh : (normalize_text t).data.getLast? with
    | none => rfl
    | some c => simpa using hlast c hh

open Utils in
/-- C5: `calculate_fingerprint t` is the SHA-256 digest of the UTF-8 bytes
of `normalize_text t`, rendered as 64 lowercase hex characters; hence it is
invariant under normalization, and any two texts with the same normalized
form have equal fingerprints. -/
theorem c5_fingerprint (t t1 t2 : String) :
    calculate_fingerprint t = sha256HexBytes (utf8Encode (normalize_text t)) ∧
    calculate_fingerprint t = calculate_fingerprint (normalize_text t) ∧
    (normalize_text t1 = normalize_text t2 →
      calculate_fingerprint t1 = calculate_fingerprint t2) ∧
    (calculate_fingerprint t).length = 64 ∧
    (∀ c ∈ (calculate_fingerprint t).data, c ∈ "0123456789abcdef".data) := by
  refine ⟨rfl, ?_, ?_, sha256HexBytes_length _, sha256HexBytes_mem _⟩
  · show sha256HexBytes (utf8Encode (normalize_text t)) =
      sha256HexBytes (utf8Encode (normalize_text (normalize_text t)))
    rw [normalize_text_idem_helper]
  · intro h
    show sha256HexBytes (utf8Encode (normalize_text t1)) =
      sha256HexBytes (utf8Encode (normalize_text t2))
    rw [h]

open Utils in
/-- Witness for C5 at concrete inputs: `"a  b"` and `"a b"` normalize
identically, so their fingerprints agree. -/
theorem c5_fingerprint_witness :
    calculate_fingerprint "a  b" = calculate_fingerprint "a b" :=
  (c5_fingerprint "" "a  b" "a b").2.2.1 rfl

open Utils in
/-- C10: `extract_hook` returns the normalized `hook` field only when that
field is truthy (non-empty); a falsy hook falls back to the normalized
first line of `text`, and to the empty string when `text` is also empty.
`check_hook_duplicate`, the guard the validator and dispatcher compare
hooks through, compares exactly these extracted values. -/
theorem c10_extract_hook (item : PostRecord) (hook : String)
    (queue : List PostRecord) (limit : Nat) :
    (item.hook ≠ "" → extract_hook item = normalize_text item.hook) ∧
    (item.hook = "" → item.text ≠ "" →
      extract_hook item = normalize_text
        (String.mk (item.text.data.takeWhile (fun c => c ≠ '\n')))) ∧
    (item.hook = "" → item.text = "" → extract_hook item = "") ∧
    check_hook_duplicate hook queue limit =
      (get_posted_items queue limit).any
        (fun it => normalize_text (extract_hook it) == normalize_text hook) := by
  refine ⟨?_, ?_, ?_, rfl⟩
  · intro h
    simp [extract_hook, h]
  · intro h1 h2
    simp [extract_hook, h1, h2]
  · intro h1 h2
    simp [extract_hook, h1, h2]
    rfl

open Utils in
/-- Witness for C10: a record with an empty (falsy) `hook` field falls
back to the normalized first line of its text. -/
theorem c10_extract_hook_witness :
    extract_hook ⟨"", "", "", "", "", "line1\nline2", "", none, none, ""⟩ =
      normalize_text (String.mk
        (("line1\nline2" : String).data.takeWhile (fun c => c ≠ '\n'))) :=
  (c10_extract_hook ⟨"", "", "", "", "", "line1\nline2", "", none, none, ""⟩
    "" [] 14).2.1 rfl (by decide)

open Utils in
/-- C6: `check_fingerprint_duplicate fp queue 50` is true exactly when
`fp` equals the fingerprint field of a record of the 50-record window of
`get_posted_items`; that window holds only records of the queue with
status `posted`, has at most 50 entries, and is ordered most-recent-first
by `posted_at_utc` (a missing timestamp, modelled `""`, sorts as
earliest). -/
theorem c6_fingerprint_window (queue : List PostRecord) (fp : String) :
    (check_fingerprint_duplicate fp queue 50 = true ↔
      ∃ r ∈ get_posted_items queue 50, r.fingerprint = some fp) ∧
    (∀ r ∈ get_posted_items queue 50, r.status = "posted" ∧ r ∈ queue) ∧
    (get_posted_items queue 50).length ≤ 50 ∧
    (get_posted_items queue 50).Pairwise
      (fun a b => postedKey b ≤ postedKey a) := by
  refine ⟨?_, ?_, List.length_take_le _ _, ?_⟩
  · show ((get_posted_items queue 50).any
      (fun item => item.fingerprint == some fp)) = true ↔ _
    rw [List.any_eq_true]
    constructor
    · rintro ⟨r, hr, hb⟩
      exact ⟨r, hr, by simpa using hb⟩
    · rintro ⟨r, hr, hb⟩
      exact ⟨r, hr, by simpa using hb⟩
  · intro r hr
    have h1 : r ∈ (queue.filter (fun item => item.status == "posted")).mergeSort
        (fun x y => decide (postedKey y ≤ postedKey x)) :=
      List.mem_of_mem_take hr
    have h2 : r ∈ queue.filter (fun item => item.status == "posted") :=
      (List.mergeSort_perm _ _).mem_iff.mp h1
    exact ⟨by simpa using List.of_mem_filter h2, List.mem_of_mem_filter h2⟩
  · have hs := @List.sorted_mergeSort PostRecord
      (fun x y => decide (postedKey y ≤ postedKey x))
      (fun a b c hab hbc => by
        simp only [decide_eq_true_eq] at hab hbc ⊢
        exact le_trans hbc hab)
      (fun a b => by
        rcases le_total (postedKey a) (postedKey b) with h | h
        · simp [h]
        · simp [h])
      (queue.filter (fun item => item.status == "posted"))
    have hp := List.Pairwise.sublist (List.take_sublist 50 _) hs
    exact hp.imp (fun h => by simpa using h)

open Utils in
/-- Witness for C6: a one-record posted queue whose fingerprint matches. -/
theorem c6_fingerprint_window_witness :
    check_fingerprint_duplicate "f1"
      [⟨"2025-01-01", "17", "", "", "", "text", "posted", some "f1", none,
        "2025-01-01T00:00:00Z"⟩] 50 = true :=
  (c6_fingerprint_window
    [⟨"2025-01-01", "17", "", "", "", "text", "posted", some "f1", none,
      "2025-01-01T00:00:00Z"⟩] "f1").1.mpr
    ⟨⟨"2025-01-01", "17", "", "", "", "text", "posted", some "f1", none,
      "2025-01-01T00:00:00Z"⟩, by simp [get_posted_items], rfl⟩

open Utils PostSlot in
/-- Propositional reading of `targetPred`. -/
theorem targetPred_iff (today slot : String) (x : PostRecord) :
    targetPred today slot x = true ↔
      (x.date = today ∧ x.slot = slot ∧ x.status = "approved") := by
  simp [targetPred, and_assoc]

open Utils PostSlot in
/-- C7: the dispatch target is the first record in document order whose
date is today, whose slot is the invoked slot, and whose status is
approved; a record failing any of the three conditions is never selected,
and `none` is returned exactly when no record satisfies all three. -/
theorem c7_find_target (today slot : String) (queue : List PostRecord) :
    (∀ r, find_target_post today queue slot = some r →
      (r.date = today ∧ r.slot = slot ∧ r.status = "approved") ∧
      ∃ pre post, queue = pre ++ r :: post ∧
        ∀ x ∈ pre, ¬(x.date = today ∧ x.slot = slot ∧ x.status = "approved")) ∧
    (find_target_post today queue slot = none ↔
      ∀ r ∈ queue, ¬(r.date = today ∧ r.slot = slot ∧ r.status = "approved")) := by
  constructor
  · intro r hr
    rw [find_target_post, List.find?_eq_some] at hr
    obtain ⟨hp, as, bs, heq, hprev⟩ := hr
    refine ⟨(targetPred_iff today slot r).mp hp, as, bs, heq, ?_⟩
    intro x hx
    have hx2 := hprev x hx
    exact (not_congr (targetPred_iff today slot x)).mp (by simpa using hx2)
  · rw [find_target_post, List.find?_eq_none]
    constructor
    · intro h r hrq
      exact (not_congr (targetPred_iff today slot r)).mp (h r hrq)
    · intro h r hrq
      exact (not_congr (targetPred_iff today slot r)).mpr (h r hrq)

open Utils PostSlot in
/-- Witness for C7: a sole record whose status is `draft` (all other
conditions met) is not selected. -/
theorem c7_find_target_witness :
    find_target_post "2025-01-02"
      [⟨"2025-01-02", "17", "", "", "", "text", "draft", none, none, ""⟩]
      "17" = none :=
  (c7_find_target "2025-01-02" "17"
    [⟨"2025-01-02", "17", "", "", "", "text", "draft", none, none, ""⟩]).2.mpr
    (by decide)

open Utils ApproveRange in
/-- C3: for a valid date pair (`fromDate ≤ toDate`), range approval (not in
preview mode) succeeds, keeps the queue length, sets status `approved` on
exactly the records whose status is `draft` and whose date parses and lies
in the inclusive range (a malformed date is simply out of range), and
changes nothing else: every other field of every record is unchanged, and
a record not matched keeps its status. -/
theorem c3_approve_range (from_str to_str : String) (queue : List PostRecord)
    (f t : PyDate) (hf : parse_date from_str = some f)
    (ht : parse_date to_str = some t) (hft : PyDate.lt t f = false) :
    ∃ (queue' : List PostRecord) (count : Nat) (saved : Bool),
      approveMain from_str to_str false queue =
        ApproveResult.ok queue' count saved ∧
      queue'.length = queue.length ∧
      (∀ (i : Nat) (orig res : PostRecord),
        queue[i]? = some orig → queue'[i]? = some res →
        res.status = (if orig.status = "draft" ∧
            is_in_range orig.date f t = true then "approved"
          else orig.status) ∧
        res.date = orig.date ∧ res.slot = orig.slot ∧
        res.pillar = orig.pillar ∧ res.format = orig.format ∧
        res.hook = orig.hook ∧ res.text = orig.text ∧
        res.fingerprint = orig.fingerprint ∧ res.tweet_id = orig.tweet_id ∧
        res.posted_at_utc = orig.posted_at_utc) := by
  by_cases hq : queue = []
  · subst hq
    refine ⟨[], 0, false, ?_, rfl, ?_⟩
    · simp [approveMain, hf, ht, hft]
    · intro i orig res h1 _
      simp at h1
  · set matched := fun item : PostRecord =>
      item.status == "draft" && is_in_range item.date f t with hm
    refine ⟨queue.map (fun item =>
        if matched item then { item with status := "approved" } else item),
      (queue.filter matched).length,
      decide ((queue.filter matched).length ≠ 0), ?_, by simp, ?_⟩
    · simp [approveMain, hf, ht, hft, hq, hm]
    · intro i orig res h1 h2
      rw [List.getElem?_map, h1] at h2
      simp only [Option.map_some', Option.some.injEq] at h2
      subst h2
      by_cases hmi : matched orig = true
      · have hms : orig.status = "draft" ∧ is_in_range orig.date f t = true := by
          simpa [hm] using hmi
        rw [if_pos hmi]
        simp [hms]
      · have hms : ¬(orig.status = "draft" ∧ is_in_range orig.date f t = true) := by
          simpa [hm] using hmi
        rw [if_neg hmi]
        simp [hms]

open Utils ApproveRange in
/-- Witness for C3: one in-range draft becomes approved; its other fields
and nothing else change. -/
theorem c3_approve_range_witness :
    ∃ (queue' : List PostRecord) (count : Nat) (saved : Bool),
      approveMain "2025-01-01" "2025-01-07" false
        [⟨"2025-01-03", "17", "p", "fmt", "h", "text", "draft", some "f",
          none, ""⟩] = ApproveResult.ok queue' count saved ∧
      queue'.length = 1 ∧
      (∀ (i : Nat) (orig res : PostRecord),
        ([⟨"2025-01-03", "17", "p", "fmt", "h", "text", "draft", some "f",
          none, ""⟩] : List PostRecord)[i]? = some orig → queue'[i]? = some res →
        res.status = (if orig.status = "draft" ∧
            is_in_range orig.date ⟨2025, 1, 1⟩ ⟨2025, 1, 7⟩ = true
          then "approved" else orig.status) ∧
        res.date = orig.date ∧ res.slot = orig.slot ∧
        res.pillar = orig.pillar ∧ res.format = orig.format ∧
        res.hook = orig.hook ∧ res.text = orig.text ∧
        res.fingerprint = orig.fingerprint ∧ res.tweet_id = orig.tweet_id ∧
        res.posted_at_utc = orig.posted_at_utc) :=
  c3_approve_range "2025-01-01" "2025-01-07"
    [⟨"2025-01-03", "17", "p", "fmt", "h", "text", "draft", some "f", none, ""⟩]
    ⟨2025, 1, 1⟩ ⟨2025, 1, 7⟩ rfl rfl rfl

open Utils ApproveRange in
/-- C9: with both dates parseable and `fromDate` strictly after `toDate`,
range approval fails with the argument error — the same error value for
every queue and mode, so no record is examined or modified. -/
theorem c9_inverted_range (from_str to_str : String) (dry_run : Bool)
    (queue : List PostRecord) (f t : PyDate)
    (hf : parse_date from_str = some f) (ht : parse_date to_str = some t)
    (hlt : PyDate.lt t f = true) :
    approveMain from_str to_str dry_run queue =
      ApproveResult.error
        "Error: --from date must be before or equal to --to date" := by
  simp [approveMain, hf, ht, hlt]

open Utils ApproveRange in
/-- Witness for C9 at a concrete inverted range and non-trivial queue. -/
theorem c9_inverted_range_witness :
    approveMain "2025-01-07" "2025-01-01" false
      [⟨"2025-01-03", "17", "", "", "", "text", "draft", none, none, ""⟩] =
      ApproveResult.error
        "Error: --from date must be before or equal to --to date" :=
  c9_inverted_range "2025-01-07" "2025-01-01" false
    [⟨"2025-01-03", "17", "", "", "", "text", "draft", none, none, ""⟩]
    ⟨2025, 1, 7⟩ ⟨2025, 1, 1⟩ rfl rfl rfl

open Utils PostSlot in
/-- C8: when the selected dispatch target fails pre-publish re-validation,
`post_slot.main` exits with the validation failure, writes no queue
document, and never calls the publish endpoint (hence no record is
mutated). -/
theorem c8_validation_abort (slot : String) (dry_run : Bool)
    (queue : List PostRecord) (today now_utc : String)
    (auth : Except String Unit) (publish : Except String String)
    (target : PostRecord) (e : String)
    (hslot : slot = "17" ∨ slot = "19")
    (hfind : find_target_post today queue slot = some target)
    (hval : validate_post target queue = Except.error e) :
    post_slot_main slot dry_run queue today auth publish now_utc =
      ⟨DispatchOutcome.validationFailed e, none, false⟩ := by
  have hq : queue ≠ [] := by
    intro h
    subst h
    simp [find_target_post] at hfind
  rcases hslot with h | h <;> subst h <;>
    simp [post_slot_main, hq, hfind, hval]

open Utils PostSlot in
/-- Witness for C8: a 261-character approved target fails the length
re-check; nothing is written and nothing is published. -/
theorem c8_validation_abort_witness :
    post_slot_main "17" false
      [⟨"2025-01-01", "17", "", "", "h", String.mk (List.replicate 261 'a'),
        "approved", some "f", none, ""⟩]
      "2025-01-01" (Except.ok ()) (Except.ok "id") "now" =
      ⟨DispatchOutcome.validationFailed "Text too long: 261 chars (max 260)",
        none, false⟩ :=
  c8_validation_abort "17" false
    [⟨"2025-01-01", "17", "", "", "h", String.mk (List.replicate 261 'a'),
      "approved", some "f", none, ""⟩]
    "2025-01-01" "now" (Except.ok ()) (Except.ok "id")
    ⟨"2025-01-01", "17", "", "", "h", String.mk (List.replicate 261 'a'),
      "approved", some "f", none, ""⟩
    "Text too long: 261 chars (max 260)" (Or.inl rfl) rfl rfl

namespace GenerateQueue

open Utils

theorem nthAttempt_shift (tpl : Template) (pd : Pillar) (cm : Common)
    (r : Rand) (k : Nat) :
    nthAttempt tpl pd cm (generate_post_text tpl pd cm r).2 k =
      nthAttempt tpl pd cm r (k + 1) := by
  induction k with
  | zero => rfl
  | succ k ih => simp [nthAttempt, ih]

/-- The retry loop runs at most `fuel` attempts: it returns the first
attempt whose normalized hook is not yet used (recording it), and on
exhaustion the last attempt's output with the used set unchanged. -/
theorem hookRetry_attempts (tpl : Template) (pd : Pillar) (cm : Common) :
    ∀ (fuel : Nat) (used : List String) (r : Rand), 1 ≤ fuel →
      (∀ k0, k0 < fuel →
        normalize_text (nthAttempt tpl pd cm r k0).1.1 ∉ used →
        (∀ j, j < k0 → normalize_text (nthAttempt tpl pd cm r j).1.1 ∈ used) →
        hookRetry tpl pd cm fuel used r =
          ((nthAttempt tpl pd cm r k0).1,
            normalize_text (nthAttempt tpl pd cm r k0).1.1 :: used,
            (nthAttempt tpl pd cm r k0).2)) ∧
      ((∀ j, j < fuel → normalize_text (nthAttempt tpl pd cm r j).1.1 ∈ used) →
        hookRetry tpl pd cm fuel used r =
          ((nthAttempt tpl pd cm r (fuel - 1)).1, used,
            (nthAttempt tpl pd cm r (fuel - 1)).2)) := by
  intro fuel
  induction fuel with
  | zero => intro used r h1; omega
  | succ n ih =>
    intro used r _
    rcases hg : generate_post_text tpl pd cm r with ⟨p, r'⟩
    have h0 : nthAttempt tpl pd cm r 0 = (p, r') := by
      simp [nthAttempt, hg]
    by_cases hcol : normalize_text p.1 ∈ used
    · by_cases hn : n = 0
      · subst hn
        have hr : hookRetry tpl pd cm 1 used r = (p, used, r') := by
          simp [hookRetry, hg, hcol]
        constructor
        · intro k0 hk0 hnot _
          have hk0z : k0 = 0 := by omega
          subst hk0z
          rw [h0] at hnot
          exact absurd hcol hnot
        · intro _
          rw [hr, h0]
      · have hr : hookRetry tpl pd cm (n + 1) used r =
            hookRetry tpl pd cm n used r' := by
          simp [hookRetry, hg, hcol, hn]
        have hshift : ∀ k, nthAttempt tpl pd cm r' k =
            nthAttempt tpl pd cm r (k + 1) := by
          intro k
          have hs := nthAttempt_shift tpl pd cm r k
          rw [hg] at hs
          exact hs
        obtain ⟨ih1, ih2⟩ := ih used r' (by omega)
        constructor
        · intro k0 hk0 hnot hmin
          cases k0 with
          | zero =>
            rw [h0] at hnot
            exact absurd hcol hnot
          | succ m =>
            rw [hr]
            have h1 := ih1 m (by omega)
              (by rw [hshift m]; exact hnot)
              (fun j hj => by rw [hshift j]; exact hmin (j + 1) (by omega))
            rw [h1, hshift m]
        · intro hall
          rw [hr]
          have h2 := ih2 (fun j hj => by
            rw [hshift j]; exact hall (j + 1) (by omega))
          rw [h2, hshift (n - 1)]
          have hne : n - 1 + 1 = n := by omega
          rw [hne]
          have hne2 : n + 1 - 1 = n := by omega
          rw [hne2]
    · have hr : hookRetry tpl pd cm (n + 1) used r =
          (p, normalize_text p.1 :: used, r') := by
        simp [hookRetry, hg, hcol]
      constructor
      · intro k0 hk0 hnot hmin
        cases k0 with
        | zero => rw [hr, h0]
        | succ m =>
          have hm := hmin 0 (Nat.succ_pos m)
          rw [h0] at hm
          exact absurd hm hcol
      · intro hall
        have hm := hall 0 (by omega)
        rw [h0] at hm
        exact absurd hm hcol

/-- In every case the returned hook's normalized form belongs to the
resulting used set, and the resulting set is exactly the input set plus
that hook. -/
theorem hookRetry_mem (tpl : Template) (pd : Pillar) (cm : Common) :
    ∀ (fuel : Nat) (used : List String) (r : Rand), 1 ≤ fuel →
      normalize_text (hookRetry tpl pd cm fuel used r).1.1 ∈
        (hookRetry tpl pd cm fuel used r).2.1 ∧
      (∀ x, x ∈ (hookRetry tpl pd cm fuel used r).2.1 ↔
        (x ∈ used ∨ x = normalize_text (hookRetry tpl pd cm fuel used r).1.1)) := by
  intro fuel
  induction fuel with
  | zero => intro used r h1; omega
  | succ n ih =>
    intro used r _
    rcases hg : generate_post_text tpl pd cm r with ⟨p, r'⟩
    by_cases hcol : normalize_text p.1 ∈ used
    · by_cases hn : n = 0
      · subst hn
        have hr : hookRetry tpl pd cm 1 used r = (p, used, r') := by
          simp [hookRetry, hg, hcol]
        rw [hr]
        refine ⟨hcol, ?_⟩
        intro x
        constructor
        · exact Or.inl
        · rintro (hx | hx)
          · exact hx
          · rw [hx]; exact hcol
      · have hr : hookRetry tpl pd cm (n + 1) used r =
            hookRetry tpl pd cm n used r' := by
          simp [hookRetry, hg, hcol, hn]
        rw [hr]
        exact ih used r' (by omega)
    · have hr : hookRetry tpl pd cm (n + 1) used r =
          (p, normalize_text p.1 :: used, r') := by
        simp [hookRetry, hg, hcol]
      rw [hr]
      refine ⟨List.mem_cons_self _ _, ?_⟩
      intro x
      rw [List.mem_cons]
      exact or_comm

end GenerateQueue

open Utils GenerateQueue in
/-- Counterexample for C1: a one-template, one-pillar configuration whose
skeleton carries 300 non-whitespace characters produces a record whose
final text has 302 code points, exceeding 260. -/
theorem c1_counterexample :
    ((generate_single_post "2025-01-01" "17"
        ⟨[("17", [⟨some ("{hook}\n" ++ String.mk (List.replicate 300 'x')),
          some "checklist", ["h"], [], [], [], none, none, none, none⟩])]⟩
        ⟨[("p1", {})], {}, {}⟩ [] []).1.map
      (fun rec => rec.text.length)) = some 302 ∧ ¬(302 ≤ 260) :=
  ⟨by decide, by omega⟩

open Utils in
/-- C1 (amended): generation enforces no length bound; the validator's
length rule flags exactly the records whose text exceeds 260 code points
(or falls under 10). -/
theorem c1_validator_flags_length (item : PostRecord) (index : Nat) :
    (item.text.length > 260 →
      ValidateQueue.validate_text_length item index ≠ []) ∧
    (ValidateQueue.validate_text_length item index = [] ↔
      (item.text.length ≤ 260 ∧ 10 ≤ item.text.length)) := by
  constructor
  · intro h
    simp [ValidateQueue.validate_text_length, MAX_TEXT_LENGTH, h]
  · by_cases h1 : item.text.length > 260 <;>
      by_cases h2 : item.text.length < 10 <;>
      simp [ValidateQueue.validate_text_length, MAX_TEXT_LENGTH, h1, h2] <;>
      omega

open Utils in
/-- Witness for the amended C1: a 261-code-point text is flagged. -/
theorem c1_validator_flags_length_witness :
    ValidateQueue.validate_text_length
      ⟨"", "", "", "", "", String.mk (List.replicate 261 'a'), "", none,
        none, ""⟩ 0 ≠ [] :=
  (c1_validator_flags_length
    ⟨"", "", "", "", "", String.mk (List.replicate 261 'a'), "", none,
      none, ""⟩ 0).1 (by decide)

open Utils GenerateQueue in
/-- C2: hook generation in `generate_single_post` is retried at most 5
times while the normalized hook is already in the caller-supplied used
set (the loop returns the first non-colliding attempt, recording its
normalized hook); when all 5 attempts collide the 5th attempt's hook is
used anyway, the used set is unchanged, and the record is still produced;
and in every case the normalized hook of the returned record ends up in
the used set — which equals the input set plus that hook (a no-op exactly
in the exhausted case, where the hook was already present). -/
theorem c2_hook_retry (date slot : String) (templates : TemplatesDoc)
    (lexicon : Lexicon) (used_hooks : List String) (r : Rand) :
    (∀ (rec : PostRecord) (used' : List String) (r' : Rand),
      generate_single_post date slot templates lexicon used_hooks r =
        (some rec, used', r') →
      normalize_text rec.hook ∈ used' ∧
      (∀ x, x ∈ used' ↔ (x ∈ used_hooks ∨ x = normalize_text rec.hook))) ∧
    ((generate_single_post date slot templates lexicon used_hooks r).1 = none ↔
      ((templates.templates.lookup slot).getD [] = [] ∨
        lexicon.pillars = [])) ∧
    (∀ (tpl : Template) (pd : Pillar) (cm : Common) (used : List String)
        (rr : Rand),
      (∀ k0, k0 < 5 →
        normalize_text (nthAttempt tpl pd cm rr k0).1.1 ∉ used →
        (∀ j, j < k0 → normalize_text (nthAttempt tpl pd cm rr j).1.1 ∈ used) →
        hookRetry tpl pd cm 5 used rr =
          ((nthAttempt tpl pd cm rr k0).1,
            normalize_text (nthAttempt tpl pd cm rr k0).1.1 :: used,
            (nthAttempt tpl pd cm rr k0).2)) ∧
      ((∀ j, j < 5 → normalize_text (nthAttempt tpl pd cm rr j).1.1 ∈ used) →
        hookRetry tpl pd cm 5 used rr =
          ((nthAttempt tpl pd cm rr 4).1, used,
            (nthAttempt tpl pd cm rr 4).2))) := by
  refine ⟨?_, ?_, fun tpl pd cm used rr =>
    hookRetry_attempts tpl pd cm 5 used rr (by omega)⟩
  · intro rec used' r' hyp
    by_cases hguard : (templates.templates.lookup slot).getD [] = [] ∨
        lexicon.pillars = []
    · simp [generate_single_post, hguard] at hyp
    · rcases h1 : rChoice ((templates.templates.lookup slot).getD [])
          {} r with ⟨template, r1⟩
      rcases h2 : rChoice (lexicon.pillars.map Prod.fst) "" r1 with
        ⟨pillar_key, r2⟩
      rcases h3 : hookRetry template
          ((lexicon.pillars.lookup pillar_key).getD {}) lexicon.common 5
          used_hooks r2 with ⟨⟨hook, text⟩, used2, r3⟩
      rcases h4 : generate_hashtags lexicon pillar_key r3 with ⟨hashtags, r4⟩
      simp only [generate_single_post, h1, h2, h3, h4, if_neg hguard,
        Prod.mk.injEq, Option.some.injEq] at hyp
      obtain ⟨hrec, hused, _⟩ := hyp
      have hhook : rec.hook = hook := by rw [← hrec]
      obtain ⟨hm1, hm2⟩ := hookRetry_mem template
        ((lexicon.pillars.lookup pillar_key).getD {}) lexicon.common 5
        used_hooks r2 (by omega)
      rw [h3] at hm1 hm2
      rw [hhook, ← hused]
      exact ⟨hm1, hm2⟩
  · by_cases hguard : (templates.templates.lookup slot).getD [] = [] ∨
        lexicon.pillars = []
    · simp [generate_single_post, hguard]
    · rcases h1 : rChoice ((templates.templates.lookup slot).getD [])
          {} r with ⟨template, r1⟩
      rcases h2 : rChoice (lexicon.pillars.map Prod.fst) "" r1 with
        ⟨pillar_key, r2⟩
      rcases h3 : hookRetry template
          ((lexicon.pillars.lookup pillar_key).getD {}) lexicon.common 5
          used_hooks r2 with ⟨⟨hook, text⟩, used2, r3⟩
      rcases h4 : generate_hashtags lexicon pillar_key r3 with ⟨hashtags, r4⟩
      simp [generate_single_post, h1, h2, h3, h4, if_neg hguard, hguard]

open Utils GenerateQueue in
/-- Witness for C2 at a configuration whose single hook pattern `"h"` is
already used: all 5 attempts collide, and the loop returns the 5th
attempt's output with the used set unchanged. -/
theorem c2_hook_retry_witness :
    hookRetry ⟨some "{hook}", some "checklist", ["h"], [], [], [], none,
        none, none, none⟩ ⟨none, none, none, [], [], [], []⟩ ⟨none⟩ 5 ["h"]
      [] =
      ((nthAttempt ⟨some "{hook}", some "checklist", ["h"], [], [], [],
          none, none, none, none⟩ ⟨none, none, none, [], [], [], []⟩ ⟨none⟩
          [] 4).1, ["h"],
        (nthAttempt ⟨some "{hook}", some "checklist", ["h"], [], [], [],
          none, none, none, none⟩ ⟨none, none, none, [], [], [], []⟩ ⟨none⟩
          [] 4).2) :=
  ((c2_hook_retry "2025-01-01" "17" ⟨[]⟩ ⟨[], ⟨none⟩, ⟨[], []⟩⟩ [] []).2.2
    ⟨some "{hook}", some "checklist", ["h"], [], [], [], none, none, none,
      none⟩ ⟨none, none, none, [], [], [], []⟩ ⟨none⟩ ["h"] []).2
    (by decide)

end Twitter
